import Mathlib

/-!
Verification of the monthly-sales dashboard (`src/dsd.py`).

The program's core is `enrich_df` (dsd.py lines 38-60): it copies the raw
dataframe, strips the period labels (column `월`), parses them as `%Y-%m`
dates into a helper column `_date`, sorts ascending by that column, coerces
the numeric columns (`매출액` = revenue, `전년동월` = prior-year same-month
revenue, `증감률` = year-over-year change percent) with `errors="coerce"`,
auto-computes missing change percentages, fills remaining nulls with 0, and
derives the quarter column `분기`.

Embedding conventions:
* A dataframe is a list of rows plus per-column presence flags (accessing a
  missing column in pandas raises `KeyError`; present columns carry data in
  every row).
* Numeric cells are modelled *after* `pd.to_numeric(..., errors="coerce")`:
  an unparseable cell, like a float NaN, is `none`; a parsed value is
  `some q` with `q : ℚ` standing for the float (the spec asks for equality
  "within floating-point tolerance", which exact rationals realise).
  Float NaN-propagation through arithmetic is modelled by `Option` matching.
* `pd.to_datetime(format="%Y-%m", errors="coerce")` is modelled by a
  year-month parser; `NaT` is `none`.
* `sort_values("_date")` places nulls last (`na_position="last"`); the model
  sorts with a total order on `Option Ym` whose top element is `none`.
  Pandas' default quicksort leaves the relative order of equal keys
  unspecified; the model's stable insertion sort realises one admissible
  order, and no property proved below depends on the order of ties.
-/

/-- A parsed year-month date (the `_date` column; `NaT` is `Option.none`). -/
structure Ym where
  year : Nat
  month : Nat
deriving DecidableEq, Repr

/-- Python's `str.strip()` (line 41, `df["월"].astype(str).str.strip()`):
drop leading and trailing whitespace. -/
def stripStr (s : String) : String :=
  ⟨((s.data.dropWhile Char.isWhitespace).reverse.dropWhile
      Char.isWhitespace).reverse⟩

/-- Split a character list at every `'-'` (the separator of the `%Y-%m`
format), keeping empty fragments, as `str.split("-")` would. -/
def splitDash : List Char → List (List Char)
  | [] => [[]]
  | c :: rest =>
    if c = '-' then [] :: splitDash rest
    else
      match splitDash rest with
      | [] => [[c]]
      | t :: ts => (c :: t) :: ts

/-- The numeric value of a decimal digit character, `none` otherwise. -/
def digitVal? (c : Char) : Option Nat :=
  if '0' ≤ c ∧ c ≤ '9' then some (c.toNat - '0'.toNat) else none

/-- The value of an all-digit character list (most-significant first);
`none` as soon as a non-digit appears. -/
def digitsVal? (cs : List Char) : Option Nat :=
  cs.foldl
    (fun acc c =>
      match acc, digitVal? c with
      | some n, some d => some (n * 10 + d)
      | _, _ => none)
    (some 0)

/-- Model of `pd.to_datetime(s, format="%Y-%m", errors="coerce")` (line 43) on an
already stripped string: exactly `YEAR-MONTH` with a 1-4 digit year, a
1-2 digit month in 1..12; anything else coerces to `none` (NaT). -/
def parseYM (s : String) : Option Ym :=
  match splitDash s.data with
  | [ys, ms] =>
    match digitsVal? ys, digitsVal? ms with
    | some y, some m =>
      if 1 ≤ ys.length ∧ ys.length ≤ 4 ∧ 1 ≤ ms.length ∧ ms.length ≤ 2
          ∧ 1 ≤ m ∧ m ≤ 12 then
        some ⟨y, m⟩
      else none
    | _, _ => none
  | _ => none

/-- Chronological (lexicographic) order on year-month dates. -/
def ymLe (a b : Ym) : Prop :=
  a.year < b.year ∨ (a.year = b.year ∧ a.month ≤ b.month)

instance : DecidableRel ymLe := fun a b => by
  unfold ymLe; infer_instance

/-- Sort-key order used by `sort_values("_date")`: `NaT` (`none`) sorts
last (`na_position="last"`, the pandas default). -/
def ymOptLe : Option Ym → Option Ym → Prop
  | _, none => True
  | none, some _ => False
  | some a, some b => ymLe a b

instance : DecidableRel ymOptLe := fun a b => by
  cases a <;> cases b <;> unfold ymOptLe <;> infer_instance

/-- One row of the raw uploaded table, with the numeric columns shown after
coercion (`pd.to_numeric(..., errors="coerce")`, dsd.py lines 46-49): a cell
that fails to parse is `none`. `changePct` carries the `증감률` cells and is
only consulted when that column is present in the table. -/
structure RawRow where
  period : String
  revenue : Option ℚ
  prior : Option ℚ
  changePct : Option ℚ
deriving DecidableEq, Repr

/-- The raw table handed to `enrich_df`: rows plus column-presence flags
(`df["c"]` raises `KeyError: 'c'` when column `c` is absent; `증감률` is
optional and tested with `"증감률" in df.columns`, line 48). -/
structure RawTable where
  rows : List RawRow
  hasPeriod : Bool
  hasRevenue : Bool
  hasPrior : Bool
  hasChange : Bool
deriving DecidableEq, Repr

/-- A row after line 43: period stripped, `_date` attached. -/
structure DRow where
  period : String
  revenue : Option ℚ
  prior : Option ℚ
  changeRaw : Option ℚ
  date : Option Ym
deriving DecidableEq, Repr

/-- Lines 41-43: `df["월"] = df["월"].astype(str).str.strip()` and
`df["_date"] = pd.to_datetime(df["월"], format="%Y-%m", errors="coerce")`. -/
def dated (r : RawRow) : DRow :=
  { period := stripStr r.period
    revenue := r.revenue
    prior := r.prior
    changeRaw := r.changePct
    date := parseYM (stripStr r.period) }

/-- Row comparison for `df.sort_values("_date")` (line 44). -/
def drowLe (a b : DRow) : Prop := ymOptLe a.date b.date

instance : DecidableRel drowLe := fun a b => by
  unfold drowLe; infer_instance

/-- Lines 48-51: the coerced `증감률` cell when the column is present,
entirely null (`np.nan`) when it is absent. -/
def coercedChange (hasChange : Bool) (cell : Option ℚ) : Option ℚ :=
  if hasChange then cell else none

/-- Lines 53-56: the auto-computation of a missing change percentage.
`missing_mask = df["증감률"].isna()`; the assignment targets rows where
`missing_mask & df["전년동월"].ne(0)` — note pandas' `ne(0)` is `True` on
NaN — and the assigned float is
`(매출액 - 전년동월) / 전년동월 * 100`, which is NaN whenever either
operand is NaN. -/
def autoChange (revenue prior change : Option ℚ) : Option ℚ :=
  match change with
  | some v => some v
  | none =>
    match prior with
    | some p =>
      if p ≠ 0 then
        match revenue with
        | some rev => some ((rev - p) / p * 100)
        | none => none
      else none
    | none =>
      match revenue with
      | some _ => none
      | none => none

/-- One row of the enriched table returned by `enrich_df`. -/
structure Row where
  period : String
  revenue : Option ℚ
  prior : Option ℚ
  changePct : Option ℚ
  date : Option Ym
  quarter : Option Nat
deriving DecidableEq, Repr

/-- Lines 46-59 applied to one (already sorted) row: numeric coercion,
change-percent auto-computation, `fillna(0)` (line 57) and
`df["분기"] = df["_date"].dt.quarter` (line 59; `dt.quarter` of `NaT`
is null, of a date with month `m` is `(m - 1) / 3 + 1`). -/
def finishRow (hasChange : Bool) (d : DRow) : Row :=
  { period := d.period
    revenue := d.revenue
    prior := d.prior
    changePct := some ((autoChange d.revenue d.prior
        (coercedChange hasChange d.changeRaw)).getD 0)
    date := d.date
    quarter := d.date.map (fun ym => (ym.month - 1) / 3 + 1) }

/-- The core transform `enrich_df` (dsd.py lines 38-60). Accessing a required column that is
absent raises `KeyError`, modelled as `Except.error` carrying `str(e)`
(which for `KeyError('c')` is `"'c'"`): `월` at line 41, `매출액` then
`전년동월` in the loop at lines 46-47. The `df.copy()` at line 39 makes the
transform pure; its heap-level effect is modelled separately by
`enrich_dfH`. -/
def enrich_df (t : RawTable) : Except String (List Row) :=
  if !t.hasPeriod then .error "'월'"
  else
    let sorted := (t.rows.map dated).insertionSort drowLe
    if !t.hasRevenue then .error "'매출액'"
    else if !t.hasPrior then .error "'전년동월'"
    else .ok (sorted.map (finishRow t.hasChange))

/-- Line 88: `total_sales = int(df["매출액"].sum())` — pandas `sum()` skips
NaN (the `int(...)` cast is display-level and elided). -/
def total_sales (rows : List Row) : ℚ :=
  (rows.filterMap Row.revenue).foldr (· + ·) 0

/-- Line 91: `avg_yoy = float(df["증감률"].mean())` — skipna mean; the mean
of an empty/all-NaN column is NaN (`none`). -/
def avg_yoy (rows : List Row) : Option ℚ :=
  let vals := rows.filterMap Row.changePct
  if vals.length = 0 then none
  else some (vals.foldr (· + ·) 0 / vals.length)

/-- Line 94: `max_idx = df["매출액"].idxmax()` — the positional index (the
sorted frame was `reset_index(drop=True)`, line 44) of the first row whose
revenue equals the column maximum; NaN revenues are skipped, and an
empty/all-NaN column yields no index. -/
def max_idx (rows : List Row) : Option Nat :=
  match (rows.filterMap Row.revenue).max? with
  | none => none
  | some m => rows.findIdx? (fun r => decide (r.revenue = some m))

/-- Line 97: `min_idx = df["매출액"].idxmin()` — first row attaining the
column minimum. -/
def min_idx (rows : List Row) : Option Nat :=
  match (rows.filterMap Row.revenue).min? with
  | none => none
  | some m => rows.findIdx? (fun r => decide (r.revenue = some m))

/-- The four KPI cards (dsd.py lines 86-98). -/
structure KPIs where
  totalSales : ℚ
  avgYoy : Option ℚ
  maxIdx : Option Nat
  minIdx : Option Nat
deriving DecidableEq, Repr

def kpis (rows : List Row) : KPIs :=
  { totalSales := total_sales rows
    avgYoy := avg_yoy rows
    maxIdx := max_idx rows
    minIdx := min_idx rows }

/-- Line 152: the divisor of the KPI-attainment chart,
`target if target else 1` — a falsy (zero) target is replaced by 1. -/
def kpiDivisor (target : ℚ) : ℚ :=
  if target = 0 then 1 else target

/-- Line 152: `rate = (df["매출액"] / (target if target else 1)) * 100.0`,
elementwise over the revenue column with NaN propagation. -/
def rateSeries (rows : List Row) (target : ℚ) : List (Option ℚ) :=
  rows.map (fun r => r.revenue.map (fun v => v / kpiDivisor target * 100))

/-- Line 130: bar colors of view 2 — `"#34d399" if v >= 0 else "#f87171"`
per change-percent cell (a float NaN compares `False` against 0, giving the
negative color). -/
def barColors (rows : List Row) : List String :=
  rows.map (fun r =>
    match r.changePct with
    | some v => if 0 ≤ v then "#34d399" else "#f87171"
    | none => "#f87171")

/-- The data content of the four chart specifications (dsd.py lines
102-160): view 1 plots revenue and prior-year revenue over the period
labels with max/min markers, view 2 the change-percent bars with
sign colors, view 3 the (quarter, revenue) box points, view 4 the
KPI-attainment line (with its fixed reference at 100). -/
structure Charts where
  trendX : List String
  trendRevenue : List (Option ℚ)
  trendPrior : List (Option ℚ)
  maxMarker : Option (String × Option ℚ)
  minMarker : Option (String × Option ℚ)
  barHeights : List (Option ℚ)
  barColor : List String
  boxPoints : List (Option Nat × Option ℚ)
  kpiRate : List (Option ℚ)
  kpiRefLine : ℚ
deriving DecidableEq, Repr

def charts (rows : List Row) (target : ℚ) : Charts :=
  { trendX := rows.map Row.period
    trendRevenue := rows.map Row.revenue
    trendPrior := rows.map Row.prior
    maxMarker := (max_idx rows).bind
      (fun i => (rows.get? i).map (fun r => (r.period, r.revenue)))
    minMarker := (min_idx rows).bind
      (fun i => (rows.get? i).map (fun r => (r.period, r.revenue)))
    barHeights := rows.map Row.changePct
    barColor := barColors rows
    boxPoints := rows.map (fun r => (r.quarter, r.revenue))
    kpiRate := rateSeries rows target
    kpiRefLine := 100 }

/-- Outcome of one render pass: either `st.error(...)` followed by
`st.stop()` (nothing below runs), or a full page of KPI cards and charts. -/
inductive RenderResult where
  | halted (msg : String)
  | page (k : KPIs) (c : Charts)
deriving DecidableEq, Repr

/-- The user-facing error prefix of line 82
(`st.error(f"데이터 처리 중 오류가 발생했습니다: \x7be\x7d")`). -/
def errMsgHead : String := "데이터 처리 중 오류가 발생했습니다: "

/-- Lines 79-160: `df = enrich_df(df_raw)` inside `try`; on exception the
message `errMsgHead ++ str(e)` is shown and `st.stop()` halts the render
(no KPI cards, no charts); otherwise the KPI cards and the four charts are
built from the enriched frame and the sidebar target. -/
def render (t : RawTable) (target : ℚ) : RenderResult :=
  match enrich_df t with
  | .error e => .halted (errMsgHead ++ e)
  | .ok rows => .page (kpis rows) (charts rows target)

/-- A heap cell for the reference-level model: dataframe variables in the
script are references to tables. -/
inductive TableVal where
  | raw (t : RawTable)
  | enriched (rows : List Row)
deriving DecidableEq, Repr

/-- A heap of dataframes; a reference is an index into it. -/
abbrev Heap := List TableVal

/-- The transform `enrich_df` at the reference level. Line 39 (`df = df.copy()`)
allocates a fresh table before any in-place column assignment, so every
write of lines 41-59 hits the fresh cell: on success the heap grows by one
cell holding the enriched table and the result is a reference to it; all
pre-existing cells (the caller's `df_raw` in particular) are untouched. -/
def enrich_dfH (h : Heap) (i : Nat) : Except String (Heap × Nat) :=
  match List.get? (α := TableVal) h i with
  | some (.raw t) =>
    (enrich_df t).map (fun rows => (h ++ [TableVal.enriched rows], h.length))
  | _ => .error "invalid dataframe reference"

/-- Chart construction at the reference level: lines 102-160 only read
`df` (no column assignment targets it), so the heap is returned as-is. -/
def chartsH (h : Heap) (i : Nat) (target : ℚ) : Except String (Heap × Charts) :=
  match List.get? (α := TableVal) h i with
  | some (.enriched rows) => .ok (h, charts rows target)
  | _ => .error "invalid dataframe reference"

/-- A concrete two-row upload (the out-of-order scenario of the spec's §8,
with the change percentages left blank). -/
def sampleRaw : RawTable :=
  { rows :=
      [ { period := "2024-03", revenue := some 11000000,
          prior := some 12800000, changePct := none },
        { period := " 2024-01 ", revenue := some 12000000,
          prior := some 10500000, changePct := none } ]
    hasPeriod := true
    hasRevenue := true
    hasPrior := true
    hasChange := true }

/-- The enriched table the model produces for `sampleRaw`: sorted January
before March, change percentages auto-computed
(`1500000/10500000*100 ≈ 14.29`, `-1800000/12800000*100 ≈ -14.06`),
quarters both 1. -/
def sampleRows : List Row :=
  [ { period := "2024-01", revenue := some 12000000, prior := some 10500000,
      changePct := some ((12000000 - 10500000) / 10500000 * 100),
      date := some ⟨2024, 1⟩, quarter := some 1 },
    { period := "2024-03", revenue := some 11000000, prior := some 12800000,
      changePct := some ((11000000 - 12800000) / 12800000 * 100),
      date := some ⟨2024, 3⟩, quarter := some 1 } ]

theorem sample_enrich : enrich_df sampleRaw = .ok sampleRows := by rfl

/-! ### Supporting lemmas -/

theorem ymLe_total (a b : Ym) : ymLe a b ∨ ymLe b a := by
  unfold ymLe; omega

theorem ymLe_trans {a b c : Ym} (h₁ : ymLe a b) (h₂ : ymLe b c) : ymLe a c := by
  unfold ymLe at *; omega

theorem ymOptLe_total (a b : Option Ym) : ymOptLe a b ∨ ymOptLe b a := by
  cases a <;> cases b
  · exact Or.inl trivial
  · exact Or.inr trivial
  · exact Or.inl trivial
  · exact ymLe_total _ _

theorem ymOptLe_trans {a b c : Option Ym} (h₁ : ymOptLe a b)
    (h₂ : ymOptLe b c) : ymOptLe a c := by
  cases a <;> cases b <;> cases c <;> unfold ymOptLe at * <;>
    first | trivial | exact ymLe_trans h₁ h₂

instance : IsTotal DRow drowLe := ⟨fun a b => ymOptLe_total a.date b.date⟩

instance : IsTrans DRow drowLe := ⟨fun _ _ _ => ymOptLe_trans⟩

/-- Splitting a successful `enrich_df` into its parts: all three required
columns were present and the result is the sorted, per-row-finished table. -/
theorem enrich_df_ok_elim {t : RawTable} {rows : List Row}
    (h : enrich_df t = .ok rows) :
    t.hasPeriod = true ∧ t.hasRevenue = true ∧ t.hasPrior = true ∧
      rows = ((t.rows.map dated).insertionSort drowLe).map
        (finishRow t.hasChange) := by
  unfold enrich_df at h
  cases hp : t.hasPeriod <;> cases hr : t.hasRevenue <;>
    cases hq : t.hasPrior <;> simp [hp, hr, hq] at h <;> simp [h]

/-- Every raw row's enriched image is in the output table. -/
theorem mem_enrich_of_mem_raw {t : RawTable} {rows : List Row}
    (h : enrich_df t = .ok rows) {raw : RawRow} (hm : raw ∈ t.rows) :
    finishRow t.hasChange (dated raw) ∈ rows := by
  obtain ⟨-, -, -, hrows⟩ := enrich_df_ok_elim h
  subst hrows
  exact List.mem_map_of_mem _
    ((List.mem_insertionSort drowLe).mpr (List.mem_map_of_mem _ hm))

/-- Every enriched row is the image of some raw row. -/
theorem exists_raw_of_mem_enrich {t : RawTable} {rows : List Row}
    (h : enrich_df t = .ok rows) {r : Row} (hm : r ∈ rows) :
    ∃ raw ∈ t.rows, r = finishRow t.hasChange (dated raw) := by
  obtain ⟨-, -, -, hrows⟩ := enrich_df_ok_elim h
  subst hrows
  obtain ⟨d, hd, rfl⟩ := List.mem_map.mp hm
  obtain ⟨raw,hraw, rfl⟩ :=
    List.mem_map.mp ((List.mem_insertionSort drowLe).mp hd)
  exact ⟨raw, hraw, rfl⟩

/-- A date produced by the `%Y-%m` parser has its month in 1..12. -/
theorem parseYM_month_bounds {s : String} {ym : Ym}
    (h : parseYM s = some ym) : 1 ≤ ym.month ∧ ym.month ≤ 12 := by
  unfold parseYM at h
  split at h
  case _ ys ms _ =>
    cases hy : digitsVal? ys <;> cases hm : digitsVal? ms <;>
      simp [hy, hm] at h
    obtain ⟨hc, rfl⟩ := h
    exact ⟨hc.2.2.2.2.1, hc.2.2.2.2.2⟩
  case _ => cases h

/-! ### Claim theorems -/

/-- C2: for every input table on which enrichment succeeds, the enriched
table's rows are in non-decreasing order of the parsed year-month date
derived from the period label (unparsed dates, `none`, order last). -/
theorem enrich_sorted_by_date {t : RawTable} {rows : List Row}
    (h : enrich_df t = .ok rows) :
    rows.Pairwise (fun a b => ymOptLe a.date b.date) := by
  obtain ⟨-, -, -, hrows⟩ := enrich_df_ok_elim h
  subst hrows
  exact (List.sorted_insertionSort drowLe _).map _ (fun a b hab => hab)

theorem enrich_sorted_by_date_witness :
    sampleRows.Pairwise (fun a b => ymOptLe a.date b.date) :=
  enrich_sorted_by_date sample_enrich

/-- C10: enrichment never drops or duplicates a row — the output has
exactly as many rows as the input, whatever fails to parse. -/
theorem enrich_preserves_row_count {t : RawTable} {rows : List Row}
    (h : enrich_df t = .ok rows) : rows.length = t.rows.length := by
  obtain ⟨-, -, -, hrows⟩ := enrich_df_ok_elim h
  subst hrows
  simp

theorem enrich_preserves_row_count_witness :
    sampleRows.length = sampleRaw.rows.length :=
  enrich_preserves_row_count sample_enrich

/-- C8: after enrichment succeeds the change-percent column has no nulls;
when the column is absent from the input it enters the computation as
entirely null (`coercedChange false` is constantly `none`) and is then
fully populated. -/
theorem changePct_fully_populated {t : RawTable} {rows : List Row}
    (h : enrich_df t = .ok rows) :
    (∀ cell, coercedChange false cell = none) ∧
      ∀ r ∈ rows, r.changePct.isSome := by
  refine ⟨fun _ => rfl, fun r hr => ?_⟩
  obtain ⟨raw, -, rfl⟩ := exists_raw_of_mem_enrich h hr
  simp [finishRow]

theorem changePct_fully_populated_witness :
    (∀ cell, coercedChange false cell = none) ∧
      ∀ r ∈ sampleRows, r.changePct.isSome :=
  changePct_fully_populated sample_enrich

/-- C7: whenever enrichment fails (e.g. a required column is missing) the
exception is caught, the user-facing message contains the underlying cause
text, and the render halts — no KPI values or charts are produced. -/
theorem render_halts_on_enrich_error (t : RawTable) (target : ℚ) (e : String)
    (h : enrich_df t = .error e) :
    render t target = .halted (errMsgHead ++ e) ∧
      ∀ k c, render t target ≠ RenderResult.page k c := by
  constructor
  · simp [render, h]
  · intro k c
    simp [render, h]

/-- A raw table whose revenue column is entirely missing. -/
def noRevenueRaw : RawTable :=
  { rows := [{ period := "2024-01", revenue := none, prior := some 1,
               changePct := none }]
    hasPeriod := true
    hasRevenue := false
    hasPrior := true
    hasChange := true }

theorem render_halts_on_enrich_error_witness :
    render noRevenueRaw 0 = .halted (errMsgHead ++ "'매출액'") ∧
      ∀ k c, render noRevenueRaw 0 ≠ RenderResult.page k c :=
  render_halts_on_enrich_error noRevenueRaw 0 "'매출액'" rfl

/-- C5: the KPI-attainment series is `revenue / target * 100` per row, the
divisor falling back to 1 exactly when the user target is 0, and the
divisor is never zero. -/
theorem kpi_attainment_divisor_safe (target : ℚ) :
    kpiDivisor target ≠ 0 ∧
    (target = 0 → kpiDivisor target = 1) ∧
    (target ≠ 0 → kpiDivisor target = target) ∧
    ∀ (rows : List Row) (i : Nat) (r : Row) (v : ℚ),
      rows[i]? = some r → r.revenue = some v →
      (rateSeries rows target)[i]? =
        some (some (v / kpiDivisor target * 100)) := by
  refine ⟨?_, fun h => by simp [kpiDivisor, h], fun h => by simp [kpiDivisor, h], ?_⟩
  · unfold kpiDivisor
    split
    · exact one_ne_zero
    · assumption
  · intro rows i r v hi hv
    simp [rateSeries, hi, hv]

theorem kpi_attainment_divisor_safe_witness :
    kpiDivisor 0 ≠ 0 ∧
      (rateSeries sampleRows 0)[0]? =
        some (some (12000000 / kpiDivisor 0 * 100)) :=
  ⟨(kpi_attainment_divisor_safe 0).1,
   (kpi_attainment_divisor_safe 0).2.2.2 sampleRows 0 _ 12000000 rfl rfl⟩

/-- C1: for every row whose change percentage is null after coercion and
whose prior-year revenue parses to a non-zero value (the revenue itself
parsing as well, as the formula requires), enrichment sets that row's
change percentage to `(revenue - prior) / prior * 100`. -/
theorem enrich_autoComputes_changePct {t : RawTable} {rows : List Row}
    {raw : RawRow} {p rev : ℚ}
    (hok : enrich_df t = .ok rows) (hraw : raw ∈ t.rows)
    (hmiss : coercedChange t.hasChange raw.changePct = none)
    (hp : raw.prior = some p) (hp0 : p ≠ 0)
    (hrev : raw.revenue = some rev) :
    ∃ r ∈ rows, r = finishRow t.hasChange (dated raw) ∧
      r.changePct = some ((rev - p) / p * 100) := by
  refine ⟨_, mem_enrich_of_mem_raw hok hraw, rfl, ?_⟩
  simp [finishRow, dated, autoChange, hmiss, hp, hp0, hrev]

theorem enrich_autoComputes_changePct_witness :
    ∃ r ∈ sampleRows,
      r = finishRow sampleRaw.hasChange
        (dated { period := " 2024-01 ", revenue := some 12000000,
                 prior := some 10500000, changePct := none }) ∧
      r.changePct = some ((12000000 - 10500000) / 10500000 * 100) :=
  enrich_autoComputes_changePct sample_enrich
    (List.mem_cons_of_mem _ (List.mem_cons_self _ _)) rfl rfl
    (by norm_num) rfl

/-- C3: a row whose change percentage is still null after the computation
step is defaulted to exactly 0; in particular a row with a missing change
percentage and a zero prior-year revenue ends up with exactly 0. -/
theorem changePct_defaults_to_zero :
    (∀ (hc : Bool) (d : DRow),
      autoChange d.revenue d.prior (coercedChange hc d.changeRaw) = none →
      (finishRow hc d).changePct = some 0) ∧
    ∀ (t : RawTable) (rows : List Row) (raw : RawRow),
      enrich_df t = .ok rows → raw ∈ t.rows →
      coercedChange t.hasChange raw.changePct = none →
      raw.prior = some 0 →
      ∃ r ∈ rows, r = finishRow t.hasChange (dated raw) ∧
        r.changePct = some 0 := by
  constructor
  · intro hc d h
    simp [finishRow, h]
  · intro t rows raw hok hraw hmiss hp
    refine ⟨_, mem_enrich_of_mem_raw hok hraw, rfl, ?_⟩
    simp [finishRow, dated, autoChange, hmiss, hp]

/-- A one-row upload whose prior-year revenue is zero and whose change
percentage is blank. -/
def zeroPriorRaw : RawTable :=
  { rows := [{ period := "2023-05", revenue := some 5, prior := some 0,
               changePct := none }]
    hasPeriod := true
    hasRevenue := true
    hasPrior := true
    hasChange := true }

/-- The enriched table for `zeroPriorRaw`: the change percentage defaults
to 0 (month 5 lies in quarter 2). -/
def zeroPriorRows : List Row :=
  [{ period := "2023-05", revenue := some 5, prior := some 0,
     changePct := some 0, date := some ⟨2023, 5⟩, quarter := some 2 }]

theorem zeroPrior_enrich : enrich_df zeroPriorRaw = .ok zeroPriorRows := by
  rfl

theorem changePct_defaults_to_zero_witness :
    ∃ r ∈ zeroPriorRows,
      r = finishRow zeroPriorRaw.hasChange
        (dated { period := "2023-05", revenue := some 5,
                 prior := some 0, changePct := none }) ∧
      r.changePct = some 0 :=
  changePct_defaults_to_zero.2 zeroPriorRaw zeroPriorRows _
    zeroPrior_enrich (List.mem_cons_self _ _) rfl rfl

/-- C4: for every enriched row whose period label parsed to a date, the
derived quarter depends only on the month: 1-3 → 1, 4-6 → 2, 7-9 → 3,
10-12 → 4. -/
theorem quarter_pure_function_of_month {t : RawTable} {rows : List Row}
    {r : Row} {ym : Ym}
    (hok : enrich_df t = .ok rows) (hr : r ∈ rows) (hd : r.date = some ym) :
    r.quarter = some (if ym.month ≤ 3 then 1 else if ym.month ≤ 6 then 2
      else if ym.month ≤ 9 then 3 else 4) := by
  obtain ⟨raw, -, rfl⟩ := exists_raw_of_mem_enrich hok hr
  have hparse : parseYM (stripStr raw.period) = some ym := hd
  obtain ⟨h1, h12⟩ := parseYM_month_bounds hparse
  show ((parseYM (stripStr raw.period)).map fun ym => (ym.month - 1) / 3 + 1)
      = _
  rw [hparse]
  simp only [Option.map_some']
  congr 1
  split_ifs <;> omega

theorem quarter_pure_function_of_month_witness :
    ∃ r ∈ sampleRows, r.date = some ⟨2024, 1⟩ ∧
      r.quarter = some (if (1 : Nat) ≤ 3 then 1 else if 1 ≤ 6 then 2
        else if 1 ≤ 9 then 3 else 4) :=
  ⟨_, List.mem_cons_self _ _, rfl,
    quarter_pure_function_of_month sample_enrich
      (List.mem_cons_self _ _) rfl⟩

/-- C9: enrichment is observationally pure at the reference level — a
successful call leaves every pre-existing heap cell (the input table in
particular) untouched and returns a reference to a freshly allocated
table; chart construction never changes the heap at all. -/
theorem enrich_pure_no_mutation (h : Heap) (i : Nat) (h' : Heap) (j : Nat)
    (hok : enrich_dfH h i = .ok (h', j)) :
    (∀ k, k < h.length → h'[k]? = h[k]?) ∧
    j = h.length ∧ i < h.length ∧ i ≠ j ∧
    (∀ (hh : Heap) (ii : Nat) (tgt : ℚ) (hh' : Heap) (c : Charts),
      chartsH hh ii tgt = .ok (hh', c) → hh' = hh) := by
  unfold enrich_dfH at hok
  split at hok
  case _ t heq =>
    have hi : i < h.length := by
      by_contra hn
      push_neg at hn
      rw [List.get?_eq_getElem?, List.getElem?_eq_none hn] at heq
      cases heq
    cases he : enrich_df t with
    | error e => rw [he] at hok; cases hok
    | ok rows =>
      rw [he] at hok
      cases hok
      refine ⟨fun k hk => by rw [List.getElem?_append, if_pos hk], rfl,
        hi, by omega, ?_⟩
      intro hh ii tgt hh' c hc
      unfold chartsH at hc
      split at hc
      · cases hc; rfl
      · cases hc
  case _ => cases hok

theorem enrich_pure_no_mutation_witness :
    (∀ k, k < [TableVal.raw sampleRaw].length →
      [TableVal.raw sampleRaw, TableVal.enriched sampleRows][k]? =
        [TableVal.raw sampleRaw][k]?) ∧
    1 = [TableVal.raw sampleRaw].length ∧
    0 < [TableVal.raw sampleRaw].length ∧ 0 ≠ 1 ∧
    (∀ (hh : Heap) (ii : Nat) (tgt : ℚ) (hh' : Heap) (c : Charts),
      chartsH hh ii tgt = .ok (hh', c) → hh' = hh) :=
  enrich_pure_no_mutation [TableVal.raw sampleRaw] 0
    [TableVal.raw sampleRaw, TableVal.enriched sampleRows] 1 rfl

/-- The `max?` of a rational list is the value that is attained and dominates
every member. -/
theorem maxQ_eq_some {l : List ℚ} {m : ℚ} (hm : m ∈ l)
    (hub : ∀ b ∈ l, b ≤ m) : l.max? = some m := by
  haveI : Std.Antisymm ((· : ℚ) ≤ ·) := ⟨fun h₁ h₂ => le_antisymm h₁ h₂⟩
  rw [List.max?_eq_some_iff le_refl max_choice (fun _ _ _ => max_le_iff)]
  exact ⟨hm, hub⟩

/-- The `min?` of a rational list is the value that is attained and is below
every member. -/
theorem minQ_eq_some {l : List ℚ} {m : ℚ} (hm : m ∈ l)
    (hlb : ∀ b ∈ l, m ≤ b) : l.min? = some m := by
  haveI : Std.Antisymm ((· : ℚ) ≤ ·) := ⟨fun h₁ h₂ => le_antisymm h₁ h₂⟩
  rw [List.min?_eq_some_iff le_refl min_choice (fun _ _ _ => le_min_iff)]
  exact ⟨hm, hlb⟩

/-- When some position satisfies `p`, `findIdx?` returns the least such
position, which is in particular no later than the given one. -/
theorem findIdx?_first {α : Type} {p : α → Bool} {l : List α} {i : Nat}
    {a : α} (hi : l[i]? = some a) (ha : p a = true) :
    ∃ k, l.findIdx? p = some k ∧ k ≤ i ∧
      ∃ b, l[k]? = some b ∧ p b = true ∧
        ∀ j c, j < k → l[j]? = some c → p c = false := by
  have hilt : i < l.length := by
    by_contra hn
    push_neg at hn
    rw [List.getElem?_eq_none hn] at hi
    cases hi
  have hex : ∃ x, x ∈ l ∧ p x := ⟨a, List.getElem?_mem hi, ha⟩
  have hfi := List.findIdx?_eq_some_of_exists hex
  obtain ⟨hlt, hpk, hmin⟩ := List.findIdx?_eq_some_iff_getElem.mp hfi
  refine ⟨l.findIdx p, hfi, ?_, l[l.findIdx p], List.getElem?_eq_getElem hlt,
    hpk, ?_⟩
  · by_contra hik
    push_neg at hik
    have ha' : l[i] = a := by
      have hh := List.getElem?_eq_getElem hilt
      rw [hi] at hh
      exact (Option.some.injEq _ _ ▸ hh).symm
    exact (hmin i hik) (by rw [ha']; exact ha)
  · intro j c hj hc
    have hjlt : j < l.length := Nat.lt_trans hj hlt
    have hc' : l[j] = c := by
      have hh := List.getElem?_eq_getElem hjlt
      rw [hc] at hh
      exact (Option.some.injEq _ _ ▸ hh).symm
    have hnp := hmin j hj
    rw [hc'] at hnp
    simpa using hnp

/-- C6: when two or more rows tie at the maximal (resp. minimal) revenue,
the max-revenue (resp. min-revenue) KPI reports the row occurring first in
the date-sorted order: the selected index is at most any tying index and
no earlier row attains the extremal value. -/
theorem maxmin_reports_first_occurrence
    {rows : List Row} {i j i' j' : Nat} {ri rj ri' rj' : Row} {m m' : ℚ}
    (hi : rows[i]? = some ri) (him : ri.revenue = some m)
    (hj : rows[j]? = some rj) (hjm : rj.revenue = some m)
    (hij : i < j)
    (hmax : ∀ r ∈ rows, ∀ v, r.revenue = some v → v ≤ m)
    (hi' : rows[i']? = some ri') (him' : ri'.revenue = some m')
    (hj' : rows[j']? = some rj') (hjm' : rj'.revenue = some m')
    (hij' : i' < j')
    (hmin : ∀ r ∈ rows, ∀ v, r.revenue = some v → m' ≤ v) :
    (∃ k rk, max_idx rows = some k ∧ k ≤ i ∧ rows[k]? = some rk ∧
        rk.revenue = some m ∧
        ∀ l rl, l < k → rows[l]? = some rl → rl.revenue ≠ some m) ∧
    (∃ k rk, min_idx rows = some k ∧ k ≤ i' ∧ rows[k]? = some rk ∧
        rk.revenue = some m' ∧
        ∀ l rl, l < k → rows[l]? = some rl → rl.revenue ≠ some m') := by
  constructor
  · have hmem : m ∈ rows.filterMap Row.revenue :=
      List.mem_filterMap.mpr ⟨ri, List.getElem?_mem hi, him⟩
    have hub : ∀ b ∈ rows.filterMap Row.revenue, b ≤ m := by
      intro b hb
      obtain ⟨r, hr, hrb⟩ := List.mem_filterMap.mp hb
      exact hmax r hr b hrb
    have hidx : max_idx rows =
        rows.findIdx? (fun r => decide (r.revenue = some m)) := by
      unfold max_idx
      rw [maxQ_eq_some hmem hub]
    obtain ⟨k, hk, hki, b, hkb, hpb, hleast⟩ :=
      findIdx?_first (p := fun r => decide (r.revenue = some m)) hi
        (by simp [him])
    refine ⟨k, b, hidx ▸ hk, hki, hkb, of_decide_eq_true hpb, ?_⟩
    intro l rl hl hrl
    have hf := hleast l rl hl hrl
    simpa using hf
  · have hmem : m' ∈ rows.filterMap Row.revenue :=
      List.mem_filterMap.mpr ⟨ri', List.getElem?_mem hi', him'⟩
    have hlb : ∀ b ∈ rows.filterMap Row.revenue, m' ≤ b := by
      intro b hb
      obtain ⟨r, hr, hrb⟩ := List.mem_filterMap.mp hb
      exact hmin r hr b hrb
    have hidx : min_idx rows =
        rows.findIdx? (fun r => decide (r.revenue = some m')) := by
      unfold min_idx
      rw [minQ_eq_some hmem hlb]
    obtain ⟨k, hk, hki, b, hkb, hpb, hleast⟩ :=
      findIdx?_first (p := fun r => decide (r.revenue = some m')) hi'
        (by simp [him'])
    refine ⟨k, b, hidx ▸ hk, hki, hkb, of_decide_eq_true hpb, ?_⟩
    intro l rl hl hrl
    have hf := hleast l rl hl hrl
    simpa using hf

/-- Rows of an enriched table carrying a revenue tie at the maximum
(indices 0 and 2, value 9) and at the minimum (indices 1 and 3, value 2). -/
def tieR0 : Row :=
  { period := "2024-01", revenue := some 9, prior := some 1,
    changePct := some 0, date := some ⟨2024, 1⟩, quarter := some 1 }

def tieR1 : Row :=
  { period := "2024-02", revenue := some 2, prior := some 1,
    changePct := some 0, date := some ⟨2024, 2⟩, quarter := some 1 }

def tieR2 : Row :=
  { period := "2024-03", revenue := some 9, prior := some 1,
    changePct := some 0, date := some ⟨2024, 3⟩, quarter := some 1 }

def tieR3 : Row :=
  { period := "2024-04", revenue := some 2, prior := some 1,
    changePct := some 0, date := some ⟨2024, 4⟩, quarter := some 2 }

def tieRows : List Row := [tieR0, tieR1, tieR2, tieR3]

theorem maxmin_reports_first_occurrence_witness :
    (∃ k rk, max_idx tieRows = some k ∧ k ≤ 0 ∧ tieRows[k]? = some rk ∧
        rk.revenue = some 9 ∧
        ∀ l rl, l < k → tieRows[l]? = some rl → rl.revenue ≠ some 9) ∧
    (∃ k rk, min_idx tieRows = some k ∧ k ≤ 1 ∧ tieRows[k]? = some rk ∧
        rk.revenue = some 2 ∧
        ∀ l rl, l < k → tieRows[l]? = some rl → rl.revenue ≠ some 2) :=
  maxmin_reports_first_occurrence
    (show tieRows[0]? = some tieR0 from rfl)
    (show tieR0.revenue = some 9 from rfl)
    (show tieRows[2]? = some tieR2 from rfl)
    (show tieR2.revenue = some 9 from rfl)
    (show (0 : Nat) < 2 by norm_num)
    (by
      intro r hr v hv
      simp only [tieRows, List.mem_cons, List.not_mem_nil, or_false] at hr
      rcases hr with rfl | rfl | rfl | rfl <;>
        simp only [tieR0, tieR1, tieR2, tieR3, Option.some.injEq] at hv <;>
        subst hv <;> norm_num)
    (show tieRows[1]? = some tieR1 from rfl)
    (show tieR1.revenue = some 2 from rfl)
    (show tieRows[3]? = some tieR3 from rfl)
    (show tieR3.revenue = some 2 from rfl)
    (show (1 : Nat) < 3 by norm_num)
    (by
      intro r hr v hv
      simp only [tieRows, List.mem_cons, List.not_mem_nil, or_false] at hr
      rcases hr with rfl | rfl | rfl | rfl <;>
        simp only [tieR0, tieR1, tieR2, tieR3, Option.some.injEq] at hv <;>
        subst hv <;> norm_num)
